import Mathlib

/-!
Shallow embedding of `src/app.py` (hockey stats app): the data model
(`Player` stats rows, `Game` rows), the reconciler `save_game_stats`,
the aggregator `get_total_stats`, the games listing `build_games_list`,
and the deletion routine `delete_games_bulk`.

Dates are modelled abstractly: `datetime.fromisoformat` either yields a
date value (modelled as a `Nat`) or raises, so a submitted date string
is either `valid d` or `invalid`. The SQLAlchemy session is modelled as
explicit state passing over lists of rows; queries inside a request see
earlier uncommitted changes (SQLAlchemy autoflush), which the sequential
state threading captures. `commit` returns the new state; `rollback`
returns the original state.
-/

namespace Hockey

/-- A `GameStat` row (app.py lines 54-61): one player's counters for one
game date. The `id` primary key is left implicit; row identity is
positional in the list. -/
structure GameStat where
  player_id : Nat
  game_date : Nat
  plus_minus : Int
  blocked_shots : Int
  takeaways : Int
  shots_taken : Int
deriving DecidableEq

/-- A `Game` row (app.py lines 48-51): a date plus an optional display
name (`name` is nullable). -/
structure Game where
  game_date : Nat
  name : Option String
deriving DecidableEq

/-- The persisted store: the `GameStat` table and the `Game` table.
Player roster rows carry no claim-relevant state beyond the ids that
appear in `GameStat.player_id`, so they are not materialised. -/
structure DB where
  stats : List GameStat
  games : List Game
deriving DecidableEq

/-- A submitted counter field as it arrives in the JSON payload: absent,
a falsy value (`None`, `""`, `0` — all coerced to 0 by `... or 0`), an
integer-valued payload, or a value on which `int()` raises. -/
inductive FieldVal where
  | missing
  | falsy
  | num (n : Int)
  | bad
deriving DecidableEq

/-- `int(player_stat.get(field, 0) or 0)` (app.py lines 173-176):
absent and falsy values coerce to 0, integers pass through, and a
non-coercible value raises (`none`). -/
def coerceField : FieldVal → Option Int
  | .missing => some 0
  | .falsy => some 0
  | .num n => some n
  | .bad => none

/-- One element of the submitted `players` array. -/
structure Entry where
  player_id : Nat
  plus_minus : FieldVal
  blocked_shots : FieldVal
  takeaways : FieldVal
  shots_taken : FieldVal
deriving DecidableEq

/-- Coerce all four counter fields of an entry, in source order;
any failure aborts the whole coercion. -/
def coerceEntry (e : Entry) : Option (Int × Int × Int × Int) := do
  let pm ← coerceField e.plus_minus
  let bs ← coerceField e.blocked_shots
  let tk ← coerceField e.takeaways
  let st ← coerceField e.shots_taken
  return (pm, bs, tk, st)

/-- `GameStat.query.filter_by(player_id=..., game_date=...).first()`
(app.py line 179). -/
def findStat (stats : List GameStat) (pid d : Nat) : Option GameStat :=
  stats.find? (fun s => s.player_id == pid && s.game_date == d)

/-- `db.session.delete(existing)` where `existing` is the first row
matching `(pid, d)`; the identity when no row matches, which is exactly
the `if existing:` guard at app.py line 183. -/
def deleteFirstStat : List GameStat → Nat → Nat → List GameStat
  | [], _, _ => []
  | s :: rest, pid, d =>
    if s.player_id == pid && s.game_date == d then rest
    else s :: deleteFirstStat rest pid d

/-- Overwrite the four counter fields of the first row matching
`(pid, d)` (app.py lines 190-193). -/
def updateFirstStat : List GameStat → Nat → Nat → Int → Int → Int → Int → List GameStat
  | [], _, _, _, _, _, _ => []
  | s :: rest, pid, d, pm, bs, tk, st =>
    if s.player_id == pid && s.game_date == d then
      { s with plus_minus := pm, blocked_shots := bs, takeaways := tk, shots_taken := st } :: rest
    else s :: updateFirstStat rest pid d pm bs tk st

/-- Process one entry of the `players` array (app.py lines 172-204):
coerce the four fields, then delete-if-all-zero or upsert. The returned
`Bool` is this entry's contribution to `any_nonzero`. `none` models the
`int()` exception. -/
def processEntry (d : Nat) (stats : List GameStat) (e : Entry) :
    Option (List GameStat × Bool) :=
  match coerceEntry e with
  | none => none
  | some (pm, bs, tk, st) =>
    if pm == 0 && bs == 0 && tk == 0 && st == 0 then
      some (deleteFirstStat stats e.player_id d, false)
    else
      match findStat stats e.player_id d with
      | some _ => some (updateFirstStat stats e.player_id d pm bs tk st, true)
      | none => some (stats ++ [⟨e.player_id, d, pm, bs, tk, st⟩], true)

/-- The `for player_stat in data['players']:` loop, threading the
session state and the `any_nonzero` accumulator. -/
def processEntries (d : Nat) : List Entry → List GameStat → Bool →
    Option (List GameStat × Bool)
  | [], stats, anyNz => some (stats, anyNz)
  | e :: rest, stats, anyNz =>
    match processEntry d stats e with
    | none => none
    | some (stats2, b) => processEntries d rest stats2 (anyNz || b)

/-- `Game.query.filter_by(game_date=...).first()` (app.py line 207). -/
def findGame (games : List Game) (d : Nat) : Option Game :=
  games.find? (fun g => g.game_date == d)

/-- `game.name = game_name` on the first row matching `d`
(app.py line 210). -/
def updateFirstGameName : List Game → Nat → String → List Game
  | [], _, _ => []
  | g :: rest, d, nm =>
    if g.game_date == d then { g with name := some nm } :: rest
    else g :: updateFirstGameName rest d nm

/-- The Game-row upsert after the entry loop (app.py lines 206-214):
overwrite the name only when non-empty; create a row only when a name
was given or some entry was non-zero. -/
def upsertGame (games : List Game) (d : Nat) (nm : String) (anyNz : Bool) :
    List Game :=
  match findGame games d with
  | some _ => if nm ≠ "" then updateFirstGameName games d nm else games
  | none =>
    if nm ≠ "" || anyNz then
      games ++ [⟨d, if nm = "" then none else some nm⟩]
    else games

/-- Python whitespace as recognised by `str.strip()`. -/
def isPySpace (c : Char) : Bool :=
  c == ' ' || c == '\t' || c == '\n' || c == '\r' || c == '\x0b' || c == '\x0c'

/-- `str.strip()`: drop leading and trailing whitespace. -/
def strip (s : String) : String :=
  ⟨((s.data.dropWhile isPySpace).reverse.dropWhile isPySpace).reverse⟩

/-- A submitted date string: `datetime.fromisoformat` either parses it
to a date value or raises. -/
inductive DateStr where
  | valid (d : Nat)
  | invalid
deriving DecidableEq

/-- `datetime.fromisoformat` (app.py line 166): `none` models the raised
`ValueError`. -/
def fromisoformat : DateStr → Option Nat
  | .valid d => some d
  | .invalid => none

/-- The JSON body of a `POST /save_game_stats` request. -/
structure SubmitRequest where
  game_date : DateStr
  game_name : Option String
  players : List Entry
deriving DecidableEq

/-- Outcome of `save_game_stats`: a committed success response, a caught
exception returning `{'success': False, ...}` with rollback, or an
exception escaping the handler (no JSON response; Flask returns a 500
error page). -/
inductive SubmitResult where
  | success
  | failure
  | unhandled
deriving DecidableEq

/-- `save_game_stats` (app.py lines 162-221). The date parse at line
166 sits OUTSIDE the `try:` block, so a malformed date escapes as an
unhandled exception; a coercion failure inside the loop is caught at
line 219 and rolled back. On success the whole session is committed. -/
def save_game_stats (db : DB) (req : SubmitRequest) : SubmitResult × DB :=
  match fromisoformat req.game_date with
  | none => (.unhandled, db)
  | some d =>
    let gname := strip (req.game_name.getD "")
    match processEntries d req.players db.stats false with
    | none => (.failure, db)
    | some (stats2, anyNz) =>
      (.success, ⟨stats2, upsertGame db.games d gname anyNz⟩)

/-- The totals record returned by `Player.get_total_stats`. -/
structure Totals where
  plus_minus : Int
  blocked_shots : Int
  takeaways : Int
  shots_taken : Int
  games_played : Nat
deriving DecidableEq

/-- `Player.get_total_stats` (app.py lines 31-45), over the list of the
player's stat rows. -/
def get_total_stats (stats : List GameStat) : Totals :=
  { plus_minus := (stats.map (·.plus_minus)).sum
    blocked_shots := (stats.map (·.blocked_shots)).sum
    takeaways := (stats.map (·.takeaways)).sum
    shots_taken := (stats.map (·.shots_taken)).sum
    games_played := stats.length }

/-- `player.stats`: the relationship collection, i.e. every `GameStat`
row whose `player_id` is this player's id. -/
def playerStats (db : DB) (pid : Nat) : List GameStat :=
  db.stats.filter (fun s => s.player_id == pid)

/-- A player's lifetime totals as read from the store. -/
def totals (db : DB) (pid : Nat) : Totals :=
  get_total_stats (playerStats db pid)

/-- `delete_stat` (app.py lines 237-244) deletes one stat row looked up
by primary key; with positional row identity this removes the first
occurrence of the row. -/
def delete_stat (db : DB) (s : GameStat) : DB :=
  ⟨db.stats.erase s, db.games⟩

/-- One element of the list built by `build_games_list`. The two
`strftime` renderings carry no claim-relevant content and are pure
functions of `game_date`, so they are not materialised. -/
structure GameView where
  game_date : Nat
  name : String
  entries_count : Nat
deriving DecidableEq

/-- `games_map.get(gdate)` where `games_map = {g.game_date: g for g in
Game.query.all()}` (app.py line 66): a later row with the same date
overwrites an earlier one in the dict comprehension, hence the last
matching row. -/
def gamesMapGet (games : List Game) (d : Nat) : Option Game :=
  games.reverse.find? (fun g => g.game_date == d)

/-- `set(list(games_map.keys()) + distinct_dates)` (app.py lines 66-69):
the union of explicit Game-row dates and distinct `GameStat` dates. -/
def allGameDates (db : DB) : List Nat :=
  (db.games.map (·.game_date) ++ db.stats.map (·.game_date)).dedup

/-- Sort key for `games_list.sort(key=..., reverse=True)` (app.py line
85): date descending. -/
def viewOrder (a b : GameView) : Prop := b.game_date ≤ a.game_date

instance : DecidableRel viewOrder := fun a b =>
  inferInstanceAs (Decidable (b.game_date ≤ a.game_date))

instance : IsTotal GameView viewOrder :=
  ⟨fun a b => Nat.le_total b.game_date a.game_date⟩

instance : IsTrans GameView viewOrder :=
  ⟨fun _ _ _ h1 h2 => Nat.le_trans h2 h1⟩

/-- `build_games_list` (app.py lines 64-86): one view per date in the
union, with `name or ''` and the count of stat rows for that date,
sorted by date descending. (`if not gdate: continue` skips a NULL date,
which the `Nat` date model cannot represent; no operation stores one.) -/
def build_games_list (db : DB) : List GameView :=
  let views := (allGameDates db).map (fun d =>
    { game_date := d
      name := ((gamesMapGet db.games d).bind (·.name)).getD ""
      entries_count := (db.stats.filter (fun s => s.game_date == d)).length
      : GameView })
  views.insertionSort viewOrder

/-- `db.session.delete(game)` for the first `Game` row matching `d`
(app.py lines 298-300); identity when absent. -/
def deleteFirstGame : List Game → Nat → List Game
  | [], _ => []
  | g :: rest, d =>
    if g.game_date == d then rest
    else g :: deleteFirstGame rest d

/-- The per-date body of `delete_game` / `delete_games_bulk` (app.py
lines 292-300): delete every stat row with this date and the Game row
if present. -/
def delete_game_data (db : DB) (d : Nat) : DB :=
  ⟨db.stats.filter (fun s => !(s.game_date == d)), deleteFirstGame db.games d⟩

/-- `delete_games_bulk` (app.py lines 281-306): for each submitted date
string, skip it if `fromisoformat` raises, otherwise delete that date's
data; one commit at the end. -/
def delete_games_bulk (db : DB) (dates : List DateStr) : DB :=
  dates.foldl (fun acc ds =>
    match fromisoformat ds with
    | none => acc
    | some d => delete_game_data acc d) db

/-! ### Invariant predicates -/

/-- No stored stat row has all four counters at zero. -/
def noZeroRows (stats : List GameStat) : Prop :=
  ∀ s ∈ stats,
    ¬(s.plus_minus = 0 ∧ s.blocked_shots = 0 ∧ s.takeaways = 0 ∧ s.shots_taken = 0)

instance (stats : List GameStat) : Decidable (noZeroRows stats) :=
  inferInstanceAs (Decidable (∀ s ∈ stats, ¬_))

/-- Every stored stat row has non-negative blocked shots, takeaways and
shots taken. -/
def nonNegRows (stats : List GameStat) : Prop :=
  ∀ s ∈ stats, 0 ≤ s.blocked_shots ∧ 0 ≤ s.takeaways ∧ 0 ≤ s.shots_taken

instance (stats : List GameStat) : Decidable (nonNegRows stats) :=
  inferInstanceAs (Decidable (∀ s ∈ stats, _ ∧ _ ∧ _))

/-! ### Lemmas about the stat-row primitives -/

lemma deleteFirstStat_sublist (l : List GameStat) (pid d : Nat) :
    (deleteFirstStat l pid d).Sublist l := by
  induction l with
  | nil => exact List.Sublist.refl _
  | cons x xs ih =>
    simp only [deleteFirstStat]
    split
    · exact List.sublist_cons_self x xs
    · exact ih.cons₂ x

lemma mem_updateFirstStat {l : List GameStat} {pid d : Nat} {pm bs tk st : Int}
    {s : GameStat} (h : s ∈ updateFirstStat l pid d pm bs tk st) :
    s ∈ l ∨ (s.plus_minus = pm ∧ s.blocked_shots = bs ∧ s.takeaways = tk ∧
      s.shots_taken = st) := by
  induction l with
  | nil => simp [updateFirstStat] at h
  | cons x xs ih =>
    simp only [updateFirstStat] at h
    split at h
    · rcases List.mem_cons.1 h with h1 | h1
      · right; subst h1; exact ⟨rfl, rfl, rfl, rfl⟩
      · exact Or.inl (List.mem_cons_of_mem _ h1)
    · rcases List.mem_cons.1 h with h1 | h1
      · exact Or.inl (h1 ▸ List.mem_cons_self _ _)
      · rcases ih h1 with h2 | h2
        · exact Or.inl (List.mem_cons_of_mem _ h2)
        · exact Or.inr h2

lemma findStat_updateFirstStat {l : List GameStat} {pid d : Nat}
    {pm bs tk st : Int} {s0 : GameStat} (h : findStat l pid d = some s0) :
    findStat (updateFirstStat l pid d pm bs tk st) pid d =
      some ⟨pid, d, pm, bs, tk, st⟩ := by
  induction l with
  | nil => simp [findStat] at h
  | cons x xs ih =>
    by_cases hx : (x.player_id == pid && x.game_date == d) = true
    · obtain ⟨h1, h2⟩ : x.player_id = pid ∧ x.game_date = d := by
        simpa [Bool.and_eq_true, beq_iff_eq] using hx
      simp only [updateFirstStat, if_pos hx, findStat]
      rw [List.find?_cons_of_pos _ (by simpa using hx)]
      simp [h1, h2]
    · have hxs : findStat xs pid d = some s0 := by
        unfold findStat at h ⊢
        rwa [List.find?_cons_of_neg _ (by simpa using hx)] at h
      have hrec := ih hxs
      unfold findStat at hrec ⊢
      simp only [updateFirstStat, if_neg hx]
      rwa [List.find?_cons_of_neg _ (by simpa using hx)]

lemma findStat_append_new {l : List GameStat} {pid d : Nat}
    (h : findStat l pid d = none) (pm bs tk st : Int) :
    findStat (l ++ [⟨pid, d, pm, bs, tk, st⟩]) pid d =
      some ⟨pid, d, pm, bs, tk, st⟩ := by
  unfold findStat at h ⊢
  rw [List.find?_append, h]
  simp

/-! ### Lemmas about entry processing -/

lemma processEntry_zero {d : Nat} {stats : List GameStat} {e : Entry}
    (hc : coerceEntry e = some (0, 0, 0, 0)) :
    processEntry d stats e = some (deleteFirstStat stats e.player_id d, false) := by
  simp [processEntry, hc]

lemma processEntry_some_of_coerce {d : Nat} {stats : List GameStat} {e : Entry}
    {v : Int × Int × Int × Int} (hc : coerceEntry e = some v) :
    ∃ out, processEntry d stats e = some out := by
  obtain ⟨pm, bs, tk, st⟩ := v
  simp only [processEntry, hc]
  split
  · exact ⟨_, rfl⟩
  · cases findStat stats e.player_id d <;> exact ⟨_, rfl⟩

lemma processEntry_mem {d : Nat} {stats : List GameStat} {e : Entry}
    {stats2 : List GameStat} {b : Bool}
    (h : processEntry d stats e = some (stats2, b)) {s : GameStat}
    (hs : s ∈ stats2) :
    s ∈ stats ∨ ∃ pm bs tk st, coerceEntry e = some (pm, bs, tk, st) ∧
      ¬(pm = 0 ∧ bs = 0 ∧ tk = 0 ∧ st = 0) ∧
      s.plus_minus = pm ∧ s.blocked_shots = bs ∧ s.takeaways = tk ∧
      s.shots_taken = st := by
  unfold processEntry at h
  cases hc : coerceEntry e with
  | none => rw [hc] at h; cases h
  | some v =>
    obtain ⟨pm, bs, tk, st⟩ := v
    rw [hc] at h
    dsimp only at h
    by_cases hz : (pm == 0 && bs == 0 && tk == 0 && st == 0) = true
    · rw [if_pos hz] at h
      obtain ⟨h1, _⟩ := Prod.mk.injEq .. ▸ Option.some.inj h
      exact Or.inl ((deleteFirstStat_sublist stats e.player_id d).subset (h1 ▸ hs))
    · rw [if_neg hz] at h
      have hnz : ¬(pm = 0 ∧ bs = 0 ∧ tk = 0 ∧ st = 0) := by
        simpa [Bool.and_eq_true, beq_iff_eq] using hz
      cases hfind : findStat stats e.player_id d <;> rw [hfind] at h <;>
        obtain ⟨h1, _⟩ := Prod.mk.injEq .. ▸ Option.some.inj h
      · rcases List.mem_append.1 (h1 ▸ hs) with h2 | h2
        · exact Or.inl h2
        · have h3 : s = (⟨e.player_id, d, pm, bs, tk, st⟩ : GameStat) := by
            simpa using h2
          exact Or.inr ⟨pm, bs, tk, st, rfl, hnz, by simp [h3]⟩
      · rcases mem_updateFirstStat (h1 ▸ hs) with h2 | h2
        · exact Or.inl h2
        · exact Or.inr ⟨pm, bs, tk, st, rfl, hnz, h2.1, h2.2.1, h2.2.2.1, h2.2.2.2⟩

lemma processEntries_mem {d : Nat} :
    ∀ {entries : List Entry} {stats : List GameStat} {b : Bool}
      {stats2 : List GameStat} {b2 : Bool},
    processEntries d entries stats b = some (stats2, b2) → ∀ s ∈ stats2,
    s ∈ stats ∨ ∃ e ∈ entries, ∃ pm bs tk st,
      coerceEntry e = some (pm, bs, tk, st) ∧
      ¬(pm = 0 ∧ bs = 0 ∧ tk = 0 ∧ st = 0) ∧
      s.plus_minus = pm ∧ s.blocked_shots = bs ∧ s.takeaways = tk ∧
      s.shots_taken = st := by
  intro entries
  induction entries with
  | nil =>
    intro stats b stats2 b2 h s hs
    simp only [processEntries] at h
    obtain ⟨h1, _⟩ := Prod.mk.injEq .. ▸ Option.some.inj h
    exact Or.inl (h1 ▸ hs)
  | cons e rest ih =>
    intro stats b stats2 b2 h s hs
    simp only [processEntries] at h
    cases hp : processEntry d stats e with
    | none => rw [hp] at h; cases h
    | some out =>
      obtain ⟨statsMid, bMid⟩ := out
      rw [hp] at h
      rcases ih h s hs with h1 | ⟨e2, he2, rest2⟩
      · rcases processEntry_mem hp h1 with h2 | ⟨pm, bs, tk, st, h3⟩
        · exact Or.inl h2
        · exact Or.inr ⟨e, List.mem_cons_self _ _, pm, bs, tk, st, h3⟩
      · exact Or.inr ⟨e2, List.mem_cons_of_mem _ he2, rest2⟩

lemma processEntries_none_of_bad {d : Nat} :
    ∀ {entries : List Entry} {stats : List GameStat} {b : Bool},
    (∃ e ∈ entries, coerceEntry e = none) →
    processEntries d entries stats b = none := by
  intro entries
  induction entries with
  | nil => intro _ _ h; obtain ⟨e, he, -⟩ := h; cases he
  | cons e rest ih =>
    intro stats b h
    obtain ⟨e2, he2, hbad⟩ := h
    rcases List.mem_cons.1 he2 with h1 | h1
    · subst h1
      simp [processEntries, processEntry, hbad]
    · cases hp : processEntry d stats e with
      | none => simp [processEntries, hp]
      | some out =>
        obtain ⟨stats2, b2⟩ := out
        simp only [processEntries, hp]
        exact ih ⟨e2, h1, hbad⟩

lemma deleteFirstStat_id_of_no_date {l : List GameStat} {d : Nat}
    (h : ∀ s ∈ l, s.game_date ≠ d) (pid : Nat) :
    deleteFirstStat l pid d = l := by
  induction l with
  | nil => rfl
  | cons x xs ih =>
    have hx : x.game_date ≠ d := h x (List.mem_cons_self _ _)
    simp only [deleteFirstStat, beq_iff_eq, hx, Bool.and_false, and_false,
      if_false, ite_false, Bool.and_eq_true, false_and]
    rw [ih (fun s hs => h s (List.mem_cons_of_mem _ hs))]

lemma processEntries_allzero_no_date {d : Nat} :
    ∀ {entries : List Entry} {stats : List GameStat} {b : Bool},
    (∀ e ∈ entries, coerceEntry e = some (0, 0, 0, 0)) →
    (∀ s ∈ stats, s.game_date ≠ d) →
    processEntries d entries stats b = some (stats, b) := by
  intro entries
  induction entries with
  | nil => intro _ _ _ _; rfl
  | cons e rest ih =>
    intro stats b hz hnd
    have hp := @processEntry_zero d stats e (hz e (List.mem_cons_self _ _))
    rw [deleteFirstStat_id_of_no_date hnd] at hp
    simp only [processEntries, hp, Bool.or_false]
    exact ih (fun e2 he2 => hz e2 (List.mem_cons_of_mem _ he2)) hnd

lemma save_invalid_date {db : DB} {req : SubmitRequest}
    (hd : fromisoformat req.game_date = none) :
    save_game_stats db req = (.unhandled, db) := by
  simp [save_game_stats, hd]

lemma save_bad_entry {db : DB} {req : SubmitRequest} {d : Nat}
    (hd : fromisoformat req.game_date = some d)
    (hbad : ∃ e ∈ req.players, coerceEntry e = none) :
    save_game_stats db req = (.failure, db) := by
  simp [save_game_stats, hd, processEntries_none_of_bad hbad]

lemma save_success_destruct {db : DB} {req : SubmitRequest} {db' : DB}
    (h : save_game_stats db req = (.success, db')) :
    ∃ d stats2 anyNz, fromisoformat req.game_date = some d ∧
      processEntries d req.players db.stats false = some (stats2, anyNz) ∧
      db' = ⟨stats2, upsertGame db.games d (strip (req.game_name.getD "")) anyNz⟩ := by
  unfold save_game_stats at h
  cases hd : fromisoformat req.game_date <;> rw [hd] at h
  · simp at h
  case some d =>
    dsimp only at h
    cases hp : processEntries d req.players db.stats false <;> rw [hp] at h
    · simp at h
    case some out =>
      obtain ⟨stats2, anyNz⟩ := out
      rw [Prod.mk.injEq] at h
      refine ⟨d, stats2, anyNz, ?_, ?_, h.2.symm⟩ <;> first | rfl | assumption

/-! ### Claims C1-C3 -/

/-- C1: an entry whose four coerced counters are all zero performs
exactly a delete of any existing row for its (player, date) and creates
nothing, and consequently a successful submit never leaves the store
with an all-zero Counter Set (given it had none before, as every
reachable store does). -/
theorem C1_no_all_zero_counter_set_persists (db : DB) (req : SubmitRequest)
    (db' : DB) (hz : noZeroRows db.stats)
    (hs : save_game_stats db req = (.success, db')) :
    noZeroRows db'.stats ∧
    ∀ (d : Nat) (stats : List GameStat) (e : Entry),
      coerceEntry e = some (0, 0, 0, 0) →
      processEntry d stats e = some (deleteFirstStat stats e.player_id d, false) := by
  constructor
  · obtain ⟨d, stats2, anyNz, hd, hp, hdb⟩ := save_success_destruct hs
    intro s hsmem
    have hs2 : s ∈ stats2 := by rw [hdb] at hsmem; exact hsmem
    rcases processEntries_mem hp s hs2 with h1 |
      ⟨e, -, pm, bs, tk, st, -, hnz, f1, f2, f3, f4⟩
    · exact hz s h1
    · intro hall
      exact hnz ⟨f1.symm.trans hall.1, f2.symm.trans hall.2.1,
        f3.symm.trans hall.2.2.1, f4.symm.trans hall.2.2.2⟩
  · intro d stats e hc
    exact processEntry_zero hc

/-- Concrete instance for C1: a store holding the single row
(player 7, date 5, counters 2/3/0/0) receives an all-zero resubmission;
the row is deleted and no all-zero row persists. -/
theorem C1_witness :
    noZeroRows (DB.mk [⟨7, 5, 2, 3, 0, 0⟩] [⟨5, none⟩]).stats ∧
    save_game_stats ⟨[⟨7, 5, 2, 3, 0, 0⟩], [⟨5, none⟩]⟩
      ⟨.valid 5, none, [⟨7, .falsy, .falsy, .falsy, .falsy⟩]⟩ =
      (.success, ⟨[], [⟨5, none⟩]⟩) ∧
    noZeroRows (DB.mk [] [⟨5, none⟩]).stats :=
  ⟨by decide, by decide,
    (C1_no_all_zero_counter_set_persists ⟨[⟨7, 5, 2, 3, 0, 0⟩], [⟨5, none⟩]⟩
      ⟨.valid 5, none, [⟨7, .falsy, .falsy, .falsy, .falsy⟩]⟩
      ⟨[], [⟨5, none⟩]⟩ (by decide) (by decide)).1⟩

/-- C2: an entry with at least one non-zero coerced counter is an
upsert: if a row for its (player, date) exists, all four fields are
overwritten in place (full replace, not increment); if none exists, a
new row with exactly the four coerced values is appended. Either way
the row subsequently found for that (player, date) holds exactly the
coerced values. -/
theorem C2_nonzero_entry_overwrites_or_creates (d : Nat)
    (stats : List GameStat) (e : Entry) (pm bs tk st : Int)
    (hc : coerceEntry e = some (pm, bs, tk, st))
    (hnz : ¬(pm = 0 ∧ bs = 0 ∧ tk = 0 ∧ st = 0)) :
    ∃ stats2, processEntry d stats e = some (stats2, true) ∧
      findStat stats2 e.player_id d = some ⟨e.player_id, d, pm, bs, tk, st⟩ ∧
      (∀ s0, findStat stats e.player_id d = some s0 →
        stats2 = updateFirstStat stats e.player_id d pm bs tk st) ∧
      (findStat stats e.player_id d = none →
        stats2 = stats ++ [⟨e.player_id, d, pm, bs, tk, st⟩]) := by
  have hzb : (pm == 0 && bs == 0 && tk == 0 && st == 0) = false := by
    rw [Bool.eq_false_iff]
    intro hcontra
    exact hnz (by simpa [Bool.and_eq_true, beq_iff_eq, and_assoc] using hcontra)
  cases hfind : findStat stats e.player_id d with
  | some s0 =>
    refine ⟨updateFirstStat stats e.player_id d pm bs tk st, ?_, ?_, ?_, ?_⟩
    · simp [processEntry, hc, hzb, hfind]
    · exact findStat_updateFirstStat hfind
    · intro s1 _; rfl
    · intro h1; exact Option.noConfusion h1
  | none =>
    refine ⟨stats ++ [⟨e.player_id, d, pm, bs, tk, st⟩], ?_, ?_, ?_, ?_⟩
    · simp [processEntry, hc, hzb, hfind]
    · exact findStat_append_new hfind pm bs tk st
    · intro s1 h1; exact Option.noConfusion h1
    · intro _; rfl

/-- Concrete instance for C2: resubmitting (player 7, date 5) with
coerced values 1/0/4/0 over an existing 2/3/0/0 row makes the stored
row exactly 1/0/4/0 — an overwrite, not an increment. -/
theorem C2_witness :
    findStat (updateFirstStat [⟨7, 5, 2, 3, 0, 0⟩] 7 5 1 0 4 0) 7 5 =
      some ⟨7, 5, 1, 0, 4, 0⟩ := by
  obtain ⟨stats2, h1, h2, h3, h4⟩ :=
    C2_nonzero_entry_overwrites_or_creates 5 [⟨7, 5, 2, 3, 0, 0⟩]
      ⟨7, .num 1, .missing, .num 4, .missing⟩ 1 0 4 0 (by decide) (by decide)
  rw [← h3 ⟨7, 5, 2, 3, 0, 0⟩ (by decide)]
  exact h2

/-- C3: a submission whose entries all coerce to zero, with an empty
name, targeting a date with no stat rows and no Game row, commits
nothing: the store is returned unchanged and the call succeeds. -/
theorem C3_all_zero_no_name_submission_is_noop (db : DB)
    (req : SubmitRequest) (d : Nat)
    (hd : fromisoformat req.game_date = some d)
    (hname : strip (req.game_name.getD "") = "")
    (hz : ∀ e ∈ req.players, coerceEntry e = some (0, 0, 0, 0))
    (hstats : ∀ s ∈ db.stats, s.game_date ≠ d)
    (hgame : findGame db.games d = none) :
    save_game_stats db req = (.success, db) := by
  have hp := processEntries_allzero_no_date (d := d) hz hstats (b := false)
  simp only [save_game_stats, hd]
  rw [hp]
  simp only [upsertGame, hgame, hname]
  simp

/-- Concrete instance for C3: an all-zero, whitespace-name submission
for brand-new date 5 leaves a store that already holds other dates
untouched and reports success. -/
theorem C3_witness :
    fromisoformat (DateStr.valid 5) = some 5 ∧
    strip "  " = "" ∧
    save_game_stats ⟨[⟨4, 9, 1, 1, 1, 1⟩], [⟨9, some "Old"⟩]⟩
      ⟨.valid 5, some "  ", [⟨7, .missing, .missing, .missing, .missing⟩]⟩ =
      (.success, ⟨[⟨4, 9, 1, 1, 1, 1⟩], [⟨9, some "Old"⟩]⟩) :=
  ⟨rfl, by decide,
    C3_all_zero_no_name_submission_is_noop
      ⟨[⟨4, 9, 1, 1, 1, 1⟩], [⟨9, some "Old"⟩]⟩
      ⟨.valid 5, some "  ", [⟨7, .missing, .missing, .missing, .missing⟩]⟩ 5
      rfl (by decide) (by decide) (by decide) (by decide)⟩

/-! ### Claim C4 -/

lemma sum_map_eq_foldr (l : List GameStat) (f : GameStat → Int) :
    (l.map f).sum = l.foldr (fun t acc => f t + acc) 0 := by
  induction l with
  | nil => rfl
  | cons x xs ih => simp [ih]

/-- C4: a player's totals are exactly the field-wise sums of that
player's current stat rows, with `games_played` their count; a player
with no rows gets all-zero totals; and after deleting a stat row the
totals are recomputed over exactly the remaining rows. -/
theorem C4_totals_are_fieldwise_sums (db : DB) (pid : Nat) (s : GameStat) :
    (totals db pid).plus_minus =
      (playerStats db pid).foldr (fun t acc => t.plus_minus + acc) 0 ∧
    (totals db pid).blocked_shots =
      (playerStats db pid).foldr (fun t acc => t.blocked_shots + acc) 0 ∧
    (totals db pid).takeaways =
      (playerStats db pid).foldr (fun t acc => t.takeaways + acc) 0 ∧
    (totals db pid).shots_taken =
      (playerStats db pid).foldr (fun t acc => t.shots_taken + acc) 0 ∧
    (totals db pid).games_played = (playerStats db pid).length ∧
    (playerStats db pid = [] → totals db pid = ⟨0, 0, 0, 0, 0⟩) ∧
    totals (delete_stat db s) pid =
      get_total_stats ((db.stats.erase s).filter (fun t => t.player_id == pid)) := by
  refine ⟨sum_map_eq_foldr _ _, sum_map_eq_foldr _ _, sum_map_eq_foldr _ _,
    sum_map_eq_foldr _ _, rfl, ?_, rfl⟩
  intro h
  simp [totals, get_total_stats, h]

/-- Concrete instance for C4: one row (2, 3, 0, 0) for player 13 gives
plus-minus total 2 via the field-wise sum, and deleting that row gives
the totals of the empty remainder. -/
theorem C4_witness :
    (totals ⟨[⟨13, 100, 2, 3, 0, 0⟩], []⟩ 13).plus_minus =
      (playerStats ⟨[⟨13, 100, 2, 3, 0, 0⟩], []⟩ 13).foldr
        (fun t acc => t.plus_minus + acc) 0 ∧
    totals (delete_stat ⟨[⟨13, 100, 2, 3, 0, 0⟩], []⟩ ⟨13, 100, 2, 3, 0, 0⟩) 13 =
      get_total_stats
        (((List.cons (⟨13, 100, 2, 3, 0, 0⟩ : GameStat) []).erase
          ⟨13, 100, 2, 3, 0, 0⟩).filter (fun t => t.player_id == 13)) := by
  have h := C4_totals_are_fieldwise_sums ⟨[⟨13, 100, 2, 3, 0, 0⟩], []⟩ 13
    ⟨13, 100, 2, 3, 0, 0⟩
  exact ⟨h.1, h.2.2.2.2.2.2⟩

/-! ### Claim C6 -/

/-- C6 counterexample: a submission with a malformed date string does
NOT produce the structured failure response — the parse happens before
the exception handler, so the error escapes unhandled. -/
theorem C6_counterexample_malformed_date_unhandled :
    save_game_stats ⟨[], []⟩ ⟨.invalid, none, []⟩ =
      (.unhandled, ⟨[], []⟩) ∧
    SubmitResult.unhandled ≠ SubmitResult.failure :=
  ⟨by decide, by decide⟩

/-- C6 amended: a malformed date string escapes as an unhandled error
before any write (store unchanged); a non-coercible numeric field is
caught, rolled back, and surfaced as the structured failure response
with the store unchanged. -/
theorem C6_validation_failure_behaviour (db : DB) (req : SubmitRequest) :
    (fromisoformat req.game_date = none →
      save_game_stats db req = (.unhandled, db)) ∧
    (∀ d, fromisoformat req.game_date = some d →
      (∃ e ∈ req.players, coerceEntry e = none) →
      save_game_stats db req = (.failure, db)) :=
  ⟨fun hd => save_invalid_date hd, fun _ hd hbad => save_bad_entry hd hbad⟩

/-- Concrete instance for C6 (amended): a non-coercible `plus_minus`
on a valid date yields the structured failure and leaves the stored
row untouched. -/
theorem C6_witness :
    fromisoformat (DateStr.valid 5) = some 5 ∧
    coerceEntry ⟨7, .bad, .missing, .missing, .missing⟩ = none ∧
    save_game_stats ⟨[⟨7, 5, 2, 3, 0, 0⟩], []⟩
      ⟨.valid 5, none, [⟨7, .bad, .missing, .missing, .missing⟩]⟩ =
      (.failure, ⟨[⟨7, 5, 2, 3, 0, 0⟩], []⟩) :=
  ⟨rfl, rfl,
    (C6_validation_failure_behaviour ⟨[⟨7, 5, 2, 3, 0, 0⟩], []⟩
      ⟨.valid 5, none, [⟨7, .bad, .missing, .missing, .missing⟩]⟩).2 5 rfl
      ⟨⟨7, .bad, .missing, .missing, .missing⟩, List.mem_cons_self _ _, rfl⟩⟩

/-! ### Claim C7 -/

/-- C7 counterexample: `save_game_stats` performs no sign validation —
a submission whose `blocked_shots` coerces to -1 is accepted and the
negative value is persisted. -/
theorem C7_counterexample_negative_blocked_shots_stored :
    (save_game_stats ⟨[], []⟩
      ⟨.valid 5, none, [⟨7, .falsy, .num (-1), .missing, .missing⟩]⟩).1 =
      .success ∧
    ∃ s ∈ (save_game_stats ⟨[], []⟩
      ⟨.valid 5, none, [⟨7, .falsy, .num (-1), .missing, .missing⟩]⟩).2.stats,
      s.blocked_shots < 0 := by
  decide

/-- C7 amended: the code enforces no non-negativity; it persists
whatever integers the coercion yields. Non-negativity of blocked shots,
takeaways and shots taken holds only conditionally: when every stored
row and every submitted coerced value is non-negative in those fields,
every row after a successful submit still is. -/
theorem C7_nonneg_preserved_conditionally (db : DB) (req : SubmitRequest)
    (db' : DB) (h1 : nonNegRows db.stats)
    (h2 : ∀ e ∈ req.players, ∀ pm bs tk st : Int,
      coerceEntry e = some (pm, bs, tk, st) → 0 ≤ bs ∧ 0 ≤ tk ∧ 0 ≤ st)
    (hs : save_game_stats db req = (.success, db')) :
    nonNegRows db'.stats := by
  obtain ⟨d, stats2, anyNz, hd, hp, hdb⟩ := save_success_destruct hs
  intro s hsmem
  have hs2 : s ∈ stats2 := by rw [hdb] at hsmem; exact hsmem
  rcases processEntries_mem hp s hs2 with hmem |
    ⟨e, he, pm, bs, tk, st, hc, -, -, f2, f3, f4⟩
  · exact h1 s hmem
  · obtain ⟨hb, ht, hst⟩ := h2 e he pm bs tk st hc
    exact ⟨by rw [f2]; exact hb, by rw [f3]; exact ht, by rw [f4]; exact hst⟩

/-- Concrete instance for C7 (amended): a submission with plus-minus -2
(signed, allowed) and non-negative other fields preserves
non-negativity of the persisted rows. -/
theorem C7_witness :
    nonNegRows (DB.mk [] []).stats ∧
    save_game_stats ⟨[], []⟩
      ⟨.valid 5, none, [⟨7, .num (-2), .num 3, .missing, .missing⟩]⟩ =
      (.success, ⟨[⟨7, 5, -2, 3, 0, 0⟩], [⟨5, none⟩]⟩) ∧
    nonNegRows (DB.mk [⟨7, 5, -2, 3, 0, 0⟩] [⟨5, none⟩]).stats :=
  ⟨by decide, by decide,
    C7_nonneg_preserved_conditionally ⟨[], []⟩
      ⟨.valid 5, none, [⟨7, .num (-2), .num 3, .missing, .missing⟩]⟩
      ⟨[⟨7, 5, -2, 3, 0, 0⟩], [⟨5, none⟩]⟩ (by decide)
      (by
        intro e he pm bs tk st hc
        have he2 : e = ⟨7, .num (-2), .num 3, .missing, .missing⟩ := by
          simpa using he
        subst he2
        have hval : some ((-2 : Int), (3 : Int), (0 : Int), (0 : Int)) =
            some (pm, bs, tk, st) := hc
        have hval2 := Option.some.inj hval
        rw [Prod.mk.injEq] at hval2
        obtain ⟨-, hval3⟩ := hval2
        rw [Prod.mk.injEq] at hval3
        obtain ⟨e2, hval4⟩ := hval3
        rw [Prod.mk.injEq] at hval4
        obtain ⟨e3, e4⟩ := hval4
        subst e2; subst e3; subst e4
        decide)
      (by decide)⟩

/-! ### Claim C8 -/

lemma findGame_updateFirstGameName {games : List Game} {d : Nat} {g : Game}
    {nm : String} (h : findGame games d = some g) :
    findGame (updateFirstGameName games d nm) d = some ⟨d, some nm⟩ := by
  induction games with
  | nil => simp [findGame] at h
  | cons x xs ih =>
    by_cases hx : (x.game_date == d) = true
    · have h1 : x.game_date = d := by simpa using hx
      simp only [updateFirstGameName, if_pos hx, findGame]
      rw [List.find?_cons_of_pos _ (by simpa using hx)]
      simp [h1]
    · have hxs : findGame xs d = some g := by
        unfold findGame at h ⊢
        rwa [List.find?_cons_of_neg _ (by simpa using hx)] at h
      have hrec := ih hxs
      unfold findGame at hrec ⊢
      simp only [updateFirstGameName, if_neg hx]
      rwa [List.find?_cons_of_neg _ (by simpa using hx)]

/-- C8: when a Game row for the submitted date already exists, a
successful submit overwrites its stored name exactly when the stripped
submitted name is non-empty; an empty submission leaves the row — name
included — unchanged. -/
theorem C8_empty_name_never_blanks (db : DB) (req : SubmitRequest)
    (db' : DB) (d : Nat) (g : Game)
    (hd : fromisoformat req.game_date = some d)
    (hg : findGame db.games d = some g)
    (hs : save_game_stats db req = (.success, db')) :
    (strip (req.game_name.getD "") = "" → findGame db'.games d = some g) ∧
    (strip (req.game_name.getD "") ≠ "" →
      findGame db'.games d = some ⟨d, some (strip (req.game_name.getD ""))⟩) := by
  obtain ⟨d2, stats2, anyNz, hd2, hp, hdb⟩ := save_success_destruct hs
  have hdd : d2 = d := Option.some.inj (hd2.symm.trans hd)
  subst hdd
  constructor
  · intro hnm
    rw [hdb]
    simp only [upsertGame, hg, hnm]
    simpa using hg
  · intro hnm
    rw [hdb]
    simp only [upsertGame, hg, if_pos hnm]
    exact findGame_updateFirstGameName hg

/-- Concrete instance for C8: an empty-name submission over a Game row
named "Old" leaves the name "Old" in place. -/
theorem C8_witness :
    fromisoformat (DateStr.valid 5) = some 5 ∧
    findGame [⟨5, some "Old"⟩] 5 = some ⟨5, some "Old"⟩ ∧
    save_game_stats ⟨[], [⟨5, some "Old"⟩]⟩ ⟨.valid 5, none, []⟩ =
      (.success, ⟨[], [⟨5, some "Old"⟩]⟩) ∧
    strip ((none : Option String).getD "") = "" ∧
    findGame (DB.mk [] [⟨5, some "Old"⟩]).games 5 = some ⟨5, some "Old"⟩ :=
  ⟨rfl, by decide, by decide, by decide,
    (C8_empty_name_never_blanks ⟨[], [⟨5, some "Old"⟩]⟩ ⟨.valid 5, none, []⟩
      ⟨[], [⟨5, some "Old"⟩]⟩ 5 ⟨5, some "Old"⟩ rfl (by decide)
      (by decide)).1 (by decide)⟩

/-! ### Claim C9 -/

lemma deleteFirstGame_sublist (l : List Game) (d : Nat) :
    (deleteFirstGame l d).Sublist l := by
  induction l with
  | nil => exact List.Sublist.refl _
  | cons x xs ih =>
    simp only [deleteFirstGame]
    split
    · exact List.sublist_cons_self x xs
    · exact ih.cons₂ x

lemma mem_deleteFirstGame_of_ne {l : List Game} {d : Nat} {g : Game}
    (hg : g ∈ l) (hne : g.game_date ≠ d) : g ∈ deleteFirstGame l d := by
  induction l with
  | nil => cases hg
  | cons x xs ih =>
    by_cases hm : (x.game_date == d) = true
    · simp only [deleteFirstGame, if_pos hm]
      rcases List.mem_cons.1 hg with h1 | h1
      · exact absurd (by simpa using hm) (h1 ▸ hne)
      · exact h1
    · simp only [deleteFirstGame, if_neg hm]
      rcases List.mem_cons.1 hg with h1 | h1
      · exact h1 ▸ List.mem_cons_self _ _
      · exact List.mem_cons_of_mem _ (ih h1)

lemma deleteFirstGame_no_date {l : List Game} {d : Nat}
    (hnd : (l.map (fun g => g.game_date)).Nodup) :
    ∀ g ∈ deleteFirstGame l d, g.game_date ≠ d := by
  induction l with
  | nil => intro g hg; cases hg
  | cons x xs ih =>
    rw [List.map_cons, List.nodup_cons] at hnd
    obtain ⟨hx, hxs⟩ := hnd
    by_cases hm : (x.game_date == d) = true
    · have hxd : x.game_date = d := by simpa using hm
      simp only [deleteFirstGame, if_pos hm]
      intro g hg hgd
      have hmem : g.game_date ∈ List.map (fun y => y.game_date) xs :=
        List.mem_map_of_mem _ hg
      rw [hgd, ← hxd] at hmem
      exact hx hmem
    · simp only [deleteFirstGame, if_neg hm]
      intro g hg
      rcases List.mem_cons.1 hg with h1 | h1
      · subst h1; simpa using hm
      · exact ih hxs g h1

lemma nodup_dates_deleteFirstGame {l : List Game} {d : Nat}
    (hnd : (l.map (fun g => g.game_date)).Nodup) :
    ((deleteFirstGame l d).map (fun g => g.game_date)).Nodup :=
  List.Nodup.sublist (List.Sublist.map _ (deleteFirstGame_sublist l d)) hnd

lemma bulk_cons_invalid {ds : DateStr} (h : fromisoformat ds = none)
    (db : DB) (rest : List DateStr) :
    delete_games_bulk db (ds :: rest) = delete_games_bulk db rest := by
  simp [delete_games_bulk, h]

lemma bulk_cons_valid {ds : DateStr} {d : Nat} (h : fromisoformat ds = some d)
    (db : DB) (rest : List DateStr) :
    delete_games_bulk db (ds :: rest) =
      delete_games_bulk (delete_game_data db d) rest := by
  simp [delete_games_bulk, h]

lemma bulk_stats_subset : ∀ {dates : List DateStr} {db : DB},
    ∀ s ∈ (delete_games_bulk db dates).stats, s ∈ db.stats := by
  intro dates
  induction dates with
  | nil => intro db s hs; exact hs
  | cons ds rest ih =>
    intro db s hs
    cases hd : fromisoformat ds with
    | none => rw [bulk_cons_invalid hd] at hs; exact ih s hs
    | some d =>
      rw [bulk_cons_valid hd] at hs
      exact List.mem_of_mem_filter (ih s hs)

lemma bulk_games_subset : ∀ {dates : List DateStr} {db : DB},
    ∀ g ∈ (delete_games_bulk db dates).games, g ∈ db.games := by
  intro dates
  induction dates with
  | nil => intro db g hg; exact hg
  | cons ds rest ih =>
    intro db g hg
    cases hd : fromisoformat ds with
    | none => rw [bulk_cons_invalid hd] at hg; exact ih g hg
    | some d =>
      rw [bulk_cons_valid hd] at hg
      exact (deleteFirstGame_sublist db.games d).subset (ih g hg)

lemma bulk_deletes_valid : ∀ {dates : List DateStr} {db : DB},
    (db.games.map (fun g => g.game_date)).Nodup →
    ∀ ds ∈ dates, ∀ d, fromisoformat ds = some d →
    (∀ s ∈ (delete_games_bulk db dates).stats, s.game_date ≠ d) ∧
    (∀ g ∈ (delete_games_bulk db dates).games, g.game_date ≠ d) := by
  intro dates
  induction dates with
  | nil => intro db _ ds hds; cases hds
  | cons ds0 rest ih =>
    intro db hnd ds hds d hd
    rcases List.mem_cons.1 hds with h1 | h1
    · subst h1
      rw [bulk_cons_valid hd]
      constructor
      · intro s hs
        have hs0 := bulk_stats_subset s hs
        simpa using List.of_mem_filter hs0
      · intro g hg
        exact deleteFirstGame_no_date hnd g (bulk_games_subset g hg)
    · cases hd0 : fromisoformat ds0 with
      | none => rw [bulk_cons_invalid hd0]; exact ih hnd ds h1 d hd
      | some d0 =>
        rw [bulk_cons_valid hd0]
        exact ih (nodup_dates_deleteFirstGame hnd) ds h1 d hd

lemma bulk_stats_frame : ∀ {dates : List DateStr} {db : DB} {s : GameStat},
    s ∈ db.stats →
    (∀ ds ∈ dates, ∀ d, fromisoformat ds = some d → s.game_date ≠ d) →
    s ∈ (delete_games_bulk db dates).stats := by
  intro dates
  induction dates with
  | nil => intro db s hs _; exact hs
  | cons ds0 rest ih =>
    intro db s hs hkeep
    cases hd0 : fromisoformat ds0 with
    | none =>
      rw [bulk_cons_invalid hd0]
      exact ih hs (fun ds hds => hkeep ds (List.mem_cons_of_mem _ hds))
    | some d0 =>
      rw [bulk_cons_valid hd0]
      refine ih ?_ (fun ds hds => hkeep ds (List.mem_cons_of_mem _ hds))
      exact List.mem_filter.2 ⟨hs,
        by simpa using hkeep ds0 (List.mem_cons_self _ _) d0 hd0⟩

lemma bulk_games_frame : ∀ {dates : List DateStr} {db : DB} {g : Game},
    g ∈ db.games →
    (∀ ds ∈ dates, ∀ d, fromisoformat ds = some d → g.game_date ≠ d) →
    g ∈ (delete_games_bulk db dates).games := by
  intro dates
  induction dates with
  | nil => intro db g hg _; exact hg
  | cons ds0 rest ih =>
    intro db g hg hkeep
    cases hd0 : fromisoformat ds0 with
    | none =>
      rw [bulk_cons_invalid hd0]
      exact ih hg (fun ds hds => hkeep ds (List.mem_cons_of_mem _ hds))
    | some d0 =>
      rw [bulk_cons_valid hd0]
      refine ih ?_ (fun ds hds => hkeep ds (List.mem_cons_of_mem _ hds))
      exact mem_deleteFirstGame_of_ne hg
        (hkeep ds0 (List.mem_cons_self _ _) d0 hd0)

/-- C9: bulk deletion skips each unparseable date without aborting the
batch; for every parseable date in the list, all stat rows and the Game
row (dates are unique across Game rows) for that date are gone
afterwards; and rows at dates not named by any parseable entry survive
untouched. -/
theorem C9_bulk_delete_skips_invalid_deletes_valid (db : DB)
    (dates : List DateStr)
    (hnd : (db.games.map (fun g => g.game_date)).Nodup) :
    (∀ ds rest, fromisoformat ds = none →
      delete_games_bulk db (ds :: rest) = delete_games_bulk db rest) ∧
    (∀ ds ∈ dates, ∀ d, fromisoformat ds = some d →
      (∀ s ∈ (delete_games_bulk db dates).stats, s.game_date ≠ d) ∧
      (∀ g ∈ (delete_games_bulk db dates).games, g.game_date ≠ d)) ∧
    (∀ s ∈ db.stats,
      (∀ ds ∈ dates, ∀ d, fromisoformat ds = some d → s.game_date ≠ d) →
      s ∈ (delete_games_bulk db dates).stats) ∧
    (∀ g ∈ db.games,
      (∀ ds ∈ dates, ∀ d, fromisoformat ds = some d → g.game_date ≠ d) →
      g ∈ (delete_games_bulk db dates).games) :=
  ⟨fun _ rest h => bulk_cons_invalid h db rest,
   fun ds hds d hd => bulk_deletes_valid hnd ds hds d hd,
   fun _ hs hkeep => bulk_stats_frame hs hkeep,
   fun _ hg hkeep => bulk_games_frame hg hkeep⟩

/-- Concrete instance for C9: the batch ["not-a-date", date 9] deletes
exactly date 9's stat row and Game row, keeps date 3's data, and the
invalid entry is a no-op. -/
theorem C9_witness :
    (([⟨9, some "Home"⟩, ⟨3, none⟩] : List Game).map
      (fun g => g.game_date)).Nodup ∧
    delete_games_bulk ⟨[⟨7, 3, 1, 0, 0, 0⟩, ⟨8, 9, 2, 0, 0, 0⟩],
      [⟨9, some "Home"⟩, ⟨3, none⟩]⟩ [.invalid, .valid 9] =
      ⟨[⟨7, 3, 1, 0, 0, 0⟩], [⟨3, none⟩]⟩ ∧
    (∀ s ∈ (delete_games_bulk ⟨[⟨7, 3, 1, 0, 0, 0⟩, ⟨8, 9, 2, 0, 0, 0⟩],
      [⟨9, some "Home"⟩, ⟨3, none⟩]⟩ [.invalid, .valid 9]).stats,
      s.game_date ≠ 9) :=
  ⟨by decide, by decide,
    ((C9_bulk_delete_skips_invalid_deletes_valid
      ⟨[⟨7, 3, 1, 0, 0, 0⟩, ⟨8, 9, 2, 0, 0, 0⟩],
        [⟨9, some "Home"⟩, ⟨3, none⟩]⟩ [.invalid, .valid 9]
      (by decide)).2.1 (.valid 9) (by decide) 9 rfl).1⟩

/-! ### Claim C5 -/

lemma gamesMapGet_eq_findGame {games : List Game} {d : Nat}
    (hnd : (games.map (fun g => g.game_date)).Nodup) :
    gamesMapGet games d = findGame games d := by
  induction games with
  | nil => rfl
  | cons x xs ih =>
    rw [List.map_cons, List.nodup_cons] at hnd
    obtain ⟨hx, hxs⟩ := hnd
    unfold gamesMapGet findGame at ih ⊢
    rw [List.reverse_cons, List.find?_append]
    by_cases hm : (x.game_date == d) = true
    · have hxd : x.game_date = d := by simpa using hm
      have hnone : xs.reverse.find? (fun g => g.game_date == d) = none := by
        rw [List.find?_eq_none]
        intro g hg
        have hgx : g ∈ xs := List.mem_reverse.1 hg
        intro hcontra
        have hmem : g.game_date ∈ List.map (fun y => y.game_date) xs :=
          List.mem_map_of_mem _ hgx
        rw [show g.game_date = d from by simpa using hcontra, ← hxd] at hmem
        exact hx hmem
      rw [hnone, Option.none_or, List.find?_cons_of_pos _ (by exact hm)]
      simp [hm]
    · have hxnone : List.find? (fun g => g.game_date == d) [x] = none := by
        simp [List.find?, hm]
      rw [hxnone, Option.or_none, List.find?_cons_of_neg _ (by exact hm)]
      exact ih hxs

lemma gamesMapGet_none_iff {games : List Game} {d : Nat} :
    gamesMapGet games d = none ↔ findGame games d = none := by
  unfold gamesMapGet findGame
  rw [List.find?_eq_none, List.find?_eq_none]
  constructor
  · intro h g hg
    exact h g (List.mem_reverse.2 hg)
  · intro h g hg
    exact h g (List.mem_reverse.1 hg)

/-- The body of `build_games_list`, with the intermediate `views` list
written out. -/
lemma build_games_list_eq (db : DB) :
    build_games_list db = ((allGameDates db).map (fun d =>
      { game_date := d
        name := ((gamesMapGet db.games d).bind (fun g => g.name)).getD ""
        entries_count := (db.stats.filter (fun s => s.game_date == d)).length
        : GameView })).insertionSort viewOrder := rfl

lemma map_game_date_of_views (l : List Nat) (f : Nat → GameView)
    (hf : ∀ d, (f d).game_date = d) :
    (l.map f).map GameView.game_date = l := by
  induction l with
  | nil => rfl
  | cons a t ih => simp [hf, ih]

/-- C5: the games listing has exactly one view per date in the union of
explicit Game-row dates and distinct stat-row dates, is sorted by date
descending, shows the Game row’s name (empty when there is no row or no
name) and the count of stat rows at that date; in particular a date
present only through stat rows appears with the empty name. (Game-row
dates are unique, as the schema enforces.) -/
theorem C5_games_list_union_sorted_desc (db : DB)
    (hnd : (db.games.map (fun g => g.game_date)).Nodup) :
    ((build_games_list db).map GameView.game_date).Perm (allGameDates db) ∧
    List.Sorted viewOrder (build_games_list db) ∧
    (∀ v ∈ build_games_list db,
      v.name = ((findGame db.games v.game_date).bind Game.name).getD "" ∧
      v.entries_count =
        (db.stats.filter (fun s => s.game_date == v.game_date)).length) ∧
    (∀ s ∈ db.stats, findGame db.games s.game_date = none →
      ∃ v ∈ build_games_list db, v.game_date = s.game_date ∧ v.name = "") := by
  refine ⟨?_, ?_, ?_, ?_⟩
  · rw [build_games_list_eq]
    have h2 := map_game_date_of_views (allGameDates db) (fun d =>
      { game_date := d
        name := ((gamesMapGet db.games d).bind (fun g => g.name)).getD ""
        entries_count := (db.stats.filter (fun s => s.game_date == d)).length
        : GameView }) (fun d => rfl)
    have h3 := (List.perm_insertionSort viewOrder ((allGameDates db).map (fun d =>
      { game_date := d
        name := ((gamesMapGet db.games d).bind (fun g => g.name)).getD ""
        entries_count := (db.stats.filter (fun s => s.game_date == d)).length
        : GameView }))).map GameView.game_date
    rw [h2] at h3
    exact h3
  · rw [build_games_list_eq]
    exact List.sorted_insertionSort viewOrder _
  · intro v hv
    rw [build_games_list_eq, List.mem_insertionSort, List.mem_map] at hv
    obtain ⟨d, -, hvd⟩ := hv
    subst hvd
    exact ⟨by rw [gamesMapGet_eq_findGame hnd], rfl⟩
  · intro s hs hnone
    have hdmem : s.game_date ∈ allGameDates db := by
      unfold allGameDates
      rw [List.mem_dedup, List.mem_append]
      exact Or.inr (List.mem_map_of_mem _ hs)
    have hvmem : ((⟨s.game_date,
        ((gamesMapGet db.games s.game_date).bind (fun g => g.name)).getD "",
        (db.stats.filter (fun t => t.game_date == s.game_date)).length⟩ :
          GameView)) ∈ build_games_list db := by
      rw [build_games_list_eq, List.mem_insertionSort]
      exact List.mem_map_of_mem _ hdmem
    refine ⟨_, hvmem, rfl, ?_⟩
    have hmg : gamesMapGet db.games s.game_date = none :=
      gamesMapGet_none_iff.2 hnone
    simp [hmg]

/-- Concrete instance for C5: a store with a named Game row at date 9
and two stat rows at date 3 (no Game row) lists date 3 with the empty
name and count 2, and date 9 with its stored name. -/
theorem C5_witness :
    (([⟨9, some "Home"⟩] : List Game).map (fun g => g.game_date)).Nodup ∧
    (∀ v ∈ build_games_list ⟨[⟨7, 3, 1, 0, 0, 0⟩, ⟨8, 3, 2, 0, 0, 0⟩],
        [⟨9, some "Home"⟩]⟩,
      v.name = ((findGame [⟨9, some "Home"⟩] v.game_date).bind
        Game.name).getD "" ∧
      v.entries_count = (([⟨7, 3, 1, 0, 0, 0⟩, ⟨8, 3, 2, 0, 0, 0⟩] :
        List GameStat).filter (fun s => s.game_date == v.game_date)).length) :=
  ⟨by decide,
    (C5_games_list_union_sorted_desc
      ⟨[⟨7, 3, 1, 0, 0, 0⟩, ⟨8, 3, 2, 0, 0, 0⟩], [⟨9, some "Home"⟩]⟩
      (by decide)).2.2.1⟩

/-! ### Claim C10 -/

lemma nodup_pids_sublist {l1 l2 : List GameStat} {d : Nat}
    (hsub : l1.Sublist l2)
    (hnd : ((l2.filter (fun s => s.game_date == d)).map
      (fun s => s.player_id)).Nodup) :
    ((l1.filter (fun s => s.game_date == d)).map
      (fun s => s.player_id)).Nodup :=
  List.Nodup.sublist (List.Sublist.map _ (hsub.filter _)) hnd

lemma deleteFirstStat_clears {stats : List GameStat} {pid d : Nat}
    (hnd : ((stats.filter (fun s => s.game_date == d)).map
      (fun s => s.player_id)).Nodup) :
    ∀ s ∈ deleteFirstStat stats pid d,
      ¬(s.player_id = pid ∧ s.game_date = d) := by
  induction stats with
  | nil => intro s hs; cases hs
  | cons x xs ih =>
    by_cases hm : (x.player_id == pid && x.game_date == d) = true
    · obtain ⟨hxp, hxd⟩ : x.player_id = pid ∧ x.game_date = d := by
        simpa [Bool.and_eq_true, beq_iff_eq] using hm
      simp only [deleteFirstStat, if_pos hm]
      rintro s hs ⟨hsp, hsd⟩
      rw [List.filter_cons_of_pos (by simp [hxd]), List.map_cons,
        List.nodup_cons] at hnd
      obtain ⟨hx, -⟩ := hnd
      have hsf : s ∈ xs.filter (fun t => t.game_date == d) :=
        List.mem_filter.2 ⟨hs, by simp [hsd]⟩
      have hmem : s.player_id ∈ List.map (fun t => t.player_id)
          (xs.filter (fun t => t.game_date == d)) :=
        List.mem_map_of_mem _ hsf
      rw [hsp, ← hxp] at hmem
      exact hx hmem
    · simp only [deleteFirstStat, if_neg hm]
      intro s hs
      rcases List.mem_cons.1 hs with h1 | h1
      · subst h1
        rintro ⟨hsp, hsd⟩
        exact hm (by simp [hsp, hsd])
      · refine ih ?_ s h1
        by_cases hxd : (x.game_date == d) = true
        · rw [List.filter_cons_of_pos (by exact hxd), List.map_cons,
            List.nodup_cons] at hnd
          exact hnd.2
        · rwa [List.filter_cons_of_neg (by exact hxd)] at hnd

lemma processEntries_allzero_clears {d : Nat} :
    ∀ {entries : List Entry} {stats : List GameStat} {b : Bool}
      {stats2 : List GameStat} {b2 : Bool},
    (∀ e ∈ entries, coerceEntry e = some (0, 0, 0, 0)) →
    ((stats.filter (fun s => s.game_date == d)).map
      (fun s => s.player_id)).Nodup →
    (∀ s ∈ stats, s.game_date = d →
      s.player_id ∈ entries.map Entry.player_id) →
    processEntries d entries stats b = some (stats2, b2) →
    ∀ s ∈ stats2, s.game_date ≠ d := by
  intro entries
  induction entries with
  | nil =>
    intro stats b stats2 b2 _ _ hcov hp s hs
    simp only [processEntries] at hp
    obtain ⟨h1, -⟩ := Prod.mk.injEq .. ▸ Option.some.inj hp
    intro hsd
    exact absurd (hcov s (h1 ▸ hs) hsd) (by simp)
  | cons e rest ih =>
    intro stats b stats2 b2 hz hnd hcov hp s hs
    have hpe := @processEntry_zero d stats e (hz e (List.mem_cons_self _ _))
    rw [processEntries, hpe] at hp
    have hsub := deleteFirstStat_sublist stats e.player_id d
    refine ih (fun e2 he2 => hz e2 (List.mem_cons_of_mem _ he2))
      (nodup_pids_sublist hsub hnd) ?_ hp s hs
    intro t ht htd
    have htfull : t ∈ stats := hsub.subset ht
    rcases List.mem_map.1 (hcov t htfull htd) with ⟨e2, he2, hpid⟩
    rcases List.mem_cons.1 he2 with h1 | h1
    · exact absurd ⟨by rw [← hpid, h1], htd⟩ (deleteFirstStat_clears hnd t ht)
    · exact hpid ▸ List.mem_map_of_mem _ h1

/-- C10: when the submitted date has an existing Game row, an all-zero
submission with an empty name (covering every player who has a stat row
at that date, at most one row per player as reachable stores guarantee)
deletes the date's stat rows but leaves the Game table — the row and
its name included — completely unchanged; the date therefore still
appears in the games listing with an entry count of zero. -/
theorem C10_zero_resubmit_keeps_game_row (db : DB) (req : SubmitRequest)
    (db2 : DB) (d : Nat) (g : Game)
    (hd : fromisoformat req.game_date = some d)
    (hg : findGame db.games d = some g)
    (hname : strip (req.game_name.getD "") = "")
    (hz : ∀ e ∈ req.players, coerceEntry e = some (0, 0, 0, 0))
    (hcov : ∀ s ∈ db.stats, s.game_date = d →
      s.player_id ∈ req.players.map Entry.player_id)
    (hnd : ((db.stats.filter (fun s => s.game_date == d)).map
      (fun s => s.player_id)).Nodup)
    (hs : save_game_stats db req = (.success, db2)) :
    db2.games = db.games ∧
    ∃ v ∈ build_games_list db2, v.game_date = d ∧ v.entries_count = 0 := by
  obtain ⟨d2, stats2, anyNz, hd2, hp, hdb⟩ := save_success_destruct hs
  have hdd : d2 = d := Option.some.inj (hd2.symm.trans hd)
  rw [hdd] at hp hdb
  have hgames : db2.games = db.games := by
    rw [hdb]
    simp only [upsertGame, hg, hname]
    simp
  have hclear : ∀ s ∈ db2.stats, s.game_date ≠ d := by
    rw [hdb]
    exact processEntries_allzero_clears hz hnd hcov hp
  refine ⟨hgames, ?_⟩
  have hgmem : g ∈ db.games := List.mem_of_find?_eq_some hg
  have hgd : g.game_date = d := by simpa using List.find?_some hg
  have hdmem : d ∈ allGameDates db2 := by
    unfold allGameDates
    rw [List.mem_dedup, List.mem_append]
    left
    rw [hgames]
    have : g.game_date ∈ List.map (fun x => x.game_date) db.games :=
      List.mem_map_of_mem _ hgmem
    rwa [hgd] at this
  have hvmem : ((⟨d,
      ((gamesMapGet db2.games d).bind (fun x => x.name)).getD "",
      (db2.stats.filter (fun s => s.game_date == d)).length⟩ :
        GameView)) ∈ build_games_list db2 := by
    rw [build_games_list_eq, List.mem_insertionSort]
    exact List.mem_map_of_mem _ hdmem
  refine ⟨_, hvmem, rfl, ?_⟩
  have hfil : db2.stats.filter (fun s => s.game_date == d) = [] := by
    rw [List.filter_eq_nil_iff]
    intro s hsmem
    simpa using hclear s hsmem
  simp [hfil]

/-- Concrete instance for C10: zeroing the sole stat row of date 5,
whose Game row is named "Rivals", leaves the Game row as-is and lists
date 5 with zero entries. -/
theorem C10_witness :
    fromisoformat (DateStr.valid 5) = some 5 ∧
    findGame [⟨5, some "Rivals"⟩] 5 = some ⟨5, some "Rivals"⟩ ∧
    save_game_stats ⟨[⟨7, 5, 2, 3, 0, 0⟩], [⟨5, some "Rivals"⟩]⟩
      ⟨.valid 5, none, [⟨7, .falsy, .falsy, .falsy, .falsy⟩]⟩ =
      (.success, ⟨[], [⟨5, some "Rivals"⟩]⟩) ∧
    ((DB.mk [] [⟨5, some "Rivals"⟩]).games = [⟨5, some "Rivals"⟩] ∧
      ∃ v ∈ build_games_list ⟨[], [⟨5, some "Rivals"⟩]⟩,
        v.game_date = 5 ∧ v.entries_count = 0) :=
  ⟨rfl, by decide, by decide,
    C10_zero_resubmit_keeps_game_row
      ⟨[⟨7, 5, 2, 3, 0, 0⟩], [⟨5, some "Rivals"⟩]⟩
      ⟨.valid 5, none, [⟨7, .falsy, .falsy, .falsy, .falsy⟩]⟩
      ⟨[], [⟨5, some "Rivals"⟩]⟩ 5 ⟨5, some "Rivals"⟩
      rfl (by decide) (by decide) (by decide) (by decide) (by decide)
      (by decide)⟩

end Hockey
